import Mathlib

/-
  Shallow embedding of src/third/SOFT/ssmem.cpp (the per-thread ssmem
  allocator with epoch-based reclamation).

  Modelling conventions:
  * Machine pointers and size_t values are modelled as Nat.  Linked lists
    of heap nodes become Lean lists (head of the list = head of the C
    list); relinking a suffix becomes list surgery.
  * The shared timestamp registry (globals ssmem_ts_list and
    ssmem_ts_list_len) is passed explicitly to the operations that read
    it.  The SSMEM_TS_INCR_ON version bump mutates only the registry,
    never the allocator, so it does not appear in the allocator-state
    transition functions.
  * Compile-time configuration constants living in the (absent) header
    ssmem.h - SSMEM_MEM_SIZE_DOUBLE, SSMEM_MEM_SIZE_MAX,
    SSMEM_GC_RLSE_SET_SIZE - are taken as explicit parameters.
  * malloc/aligned_alloc return uninitialized memory; where the
    uninitialized contents can matter a junk buffer is threaded
    explicitly, otherwise a zero buffer stands in for contents that are
    fully overwritten before being read.
-/

/-- ssmem_ts_t: one per-thread version slot {id, version} of the shared
timestamp registry (the next pointer is the list structure). -/
structure ssmem_ts_t where
  id : Nat
  version : Nat
deriving DecidableEq

/-- The process-wide registry globals: ssmem_ts_list (intrusive list,
head = newest insert) and ssmem_ts_list_len. -/
structure ssmem_ts_globals where
  ts_list : List ssmem_ts_t
  ts_list_len : Nat
deriving DecidableEq

/-- ssmem_free_set_t: fixed-capacity buffer of freed pointers.  size =
capacity, curr = fill, set = the pointer buffer (length size, allocated
together with the node), ts_set = the snapshot buffer (none = nullptr). -/
structure ssmem_free_set_t where
  size : Nat
  curr : Nat
  set : List Nat
  ts_set : Option (List Nat)
deriving DecidableEq

/-- ssmem_released_t: a single-object release record; ts_set is the
trailing buffer of ssmem_ts_list_len words allocated with the node. -/
structure ssmem_released_t where
  mem : Nat
  ts_set : List Nat
deriving DecidableEq

/-- ssmem_allocator_t.  mem_chunks holds the chunk base addresses
(head = newest chunk).  The thread-local allocator bookkeeping list and
the ts-slot back pointer are process/thread globals not represented in
the per-allocator state. -/
structure ssmem_allocator_t where
  mem : Nat
  mem_curr : Nat
  mem_size : Nat
  tot_size : Nat
  fs_size : Nat
  mem_chunks : List Nat
  free_set_list : List ssmem_free_set_t
  free_set_num : Nat
  collected_set_list : List ssmem_free_set_t
  collected_set_num : Nat
  available_set_list : List ssmem_free_set_t
  released_mem_list : List ssmem_released_t
  released_num : Nat
deriving DecidableEq

/-- The walk of ssmem_ts_set_collect:
while (cur != nullptr && cur->id < ssmem_ts_list_len)
  { ts_set[cur->id] = cur->version; cur = cur->next; }
Note the loop terminates at the first slot whose id is >= len; it does
not skip it and continue. -/
def ssmem_ts_set_collect_loop (len : Nat) : List ssmem_ts_t → List Nat → List Nat
  | [], buf => buf
  | s :: rest, buf =>
      if s.id < len then ssmem_ts_set_collect_loop len rest (buf.set s.id s.version)
      else buf

/-- ssmem_ts_set_collect: when called with a null buffer it mallocs
ssmem_ts_list_len words (uninitialized; zeros stand in for the junk
contents, which every use below either overwrites or never reads), then
runs the walk.  When called with an existing buffer the buffer is reused
in place, so entries not written by the walk keep their previous values. -/
def ssmem_ts_set_collect (g : ssmem_ts_globals) (ts_set : Option (List Nat)) : List Nat :=
  ssmem_ts_set_collect_loop g.ts_list_len g.ts_list
    (ts_set.getD (List.replicate g.ts_list_len 0))

/-- ssmem_ts_compare: return 1 iff s_new[i] > s_old[i] for every
i < ssmem_ts_list_len.  The C loop reads raw memory; this List form is
used only where both buffers have length at least len (getD then never
hits its default).  ssmem_ts_compare_mem below is the raw-memory form. -/
def ssmem_ts_compare (len : Nat) (s_new s_old : List Nat) : Bool :=
  (List.range len).all fun i => decide (s_old.getD i 0 < s_new.getD i 0)

/-- ssmem_ts_compare over raw memory: s_new and s_old give the word
stored at each index of the two buffers; indices at or beyond a buffer's
allocated extent read whatever the adjacent heap memory holds. -/
def ssmem_ts_compare_mem (len : Nat) (s_new s_old : Nat → Nat) : Bool :=
  (List.range len).all fun i => decide (s_old i < s_new i)

/-- Modelled from the spec: the comparison discipline the spec section
4.5 claims for snapshots of unequal length - compare only over
min(len_new, len_old) entries, with each entry missing from the older
snapshot treated as 0.  (Stated only to be compared against the source
comparison; this is not what the code does.) -/
def spec_ts_compare_trunc (len_new len_old : Nat) (s_new s_old : Nat → Nat) : Bool :=
  (List.range (min len_new len_old)).all fun i =>
    decide ((if i < len_old then s_old i else 0) < s_new i)

/-- ssmem_free_set_new: fresh set of the given capacity; curr = 0,
ts_set = nullptr, pointer buffer allocated with the node (uninitialized;
zeros stand in for contents never read before being written). -/
def ssmem_free_set_new (size : Nat) : ssmem_free_set_t :=
  { size := size, curr := 0, set := List.replicate size 0, ts_set := none }

/-- ssmem_free_set_get_avail: pop the head of the available-set list if
any (resetting curr to 0 - ts_set is NOT reset), else allocate a fresh
set.  The C next argument links the returned set; in this embedding the
caller prepends the returned set to its list instead. -/
def ssmem_free_set_get_avail (a : ssmem_allocator_t) (size : Nat) :
    ssmem_free_set_t × ssmem_allocator_t :=
  match a.available_set_list with
  | fs :: rest => ({ fs with curr := 0 }, { a with available_set_list := rest })
  | [] => (ssmem_free_set_new size, a)

/-- ssmem_free_set_make_avail: push the set (curr reset to 0) onto the
available-set list. -/
def ssmem_free_set_make_avail (a : ssmem_allocator_t) (s : ssmem_free_set_t) :
    ssmem_allocator_t :=
  { a with available_set_list := { s with curr := 0 } :: a.available_set_list }

/-- ssmem_alloc_init_fs_size: initialize an allocator over a backing
chunk at address base of the given size, with free-set capacity
free_set_size.  The registry subscription (ssmem_gc_thread_init) and the
thread-local allocator bookkeeping mutate globals and are not part of
the per-allocator state. -/
def ssmem_alloc_init_fs_size (base size free_set_size : Nat) : ssmem_allocator_t :=
  { mem := base
    mem_curr := 0
    mem_size := size
    tot_size := size
    fs_size := free_set_size
    mem_chunks := [base]
    free_set_list := [ssmem_free_set_new free_set_size]
    free_set_num := 1
    collected_set_list := []
    collected_set_num := 0
    available_set_list := []
    released_mem_list := []
    released_num := 0 }

/-- The released-list half of ssmem_mem_reclaim.  It reads and writes
only (released_mem_list, released_num).  The physical vmem_free/free of
the suffix records becomes their removal from the list.  (If
released_num > 0 with an empty list the C code dereferences null; that
configuration never arises because released_num counts the list.) -/
def relStep (len : Nat) (l : List ssmem_released_t) (n : Nat) :
    List ssmem_released_t × Nat :=
  if 0 < n then
    match l with
    | rel_cur :: rel_nxt :: _ =>
        if ssmem_ts_compare len rel_cur.ts_set rel_nxt.ts_set then ([rel_cur], 1)
        else (l, n)
    | _ => (l, n)
  else (l, n)

/-- Output record of the free-set half of ssmem_mem_reclaim. -/
structure FsStepOut where
  fsl : List ssmem_free_set_t
  fsnum : Nat
  csl : List ssmem_free_set_t
  csnum : Nat
  gced : Nat
deriving DecidableEq

/-- The free-set half of ssmem_mem_reclaim.  It reads and writes only
the free-set and collected-set lists and counters.  When the head and
its successor both carry snapshots and the head snapshot is elementwise
strictly greater, the whole suffix after the head is appended (order
preserved, via the tail walk of the collected list) to the collected
list; gced is free_set_num - 1.  (A null free_set_list would be a null
dereference in C; it never arises, and is a no-op returning 0 here.) -/
def fsStep (len : Nat) (fsl : List ssmem_free_set_t) (fsnum : Nat)
    (csl : List ssmem_free_set_t) (csnum : Nat) : FsStepOut :=
  match fsl with
  | [] => ⟨fsl, fsnum, csl, csnum, 0⟩
  | fs_cur :: fs_rest =>
      match fs_cur.ts_set with
      | none => ⟨fsl, fsnum, csl, csnum, 0⟩
      | some ts_cur =>
          match fs_rest with
          | [] => ⟨fsl, fsnum, csl, csnum, 0⟩
          | fs_nxt :: _ =>
              match fs_nxt.ts_set with
              | none => ⟨fsl, fsnum, csl, csnum, 0⟩
              | some ts_nxt =>
                  if ssmem_ts_compare len ts_cur ts_nxt then
                    ⟨[fs_cur], 1, csl ++ fs_rest, csnum + (fsnum - 1), fsnum - 1⟩
                  else ⟨fsl, fsnum, csl, csnum, 0⟩

/-- ssmem_mem_reclaim: released-list pass, then free-set pass; returns
the updated allocator and the number of promoted sets (gced_num).  The
two passes touch disjoint fields of the allocator, exactly as in the C
function. -/
def ssmem_mem_reclaim (len : Nat) (a : ssmem_allocator_t) :
    ssmem_allocator_t × Nat :=
  let rl := relStep len a.released_mem_list a.released_num
  let fr := fsStep len a.free_set_list a.free_set_num
              a.collected_set_list a.collected_set_num
  ({ a with released_mem_list := rl.1,
            released_num := rl.2,
            free_set_list := fr.fsl,
            free_set_num := fr.fsnum,
            collected_set_list := fr.csl,
            collected_set_num := fr.csnum }, fr.gced)

/-- The while loop of the large-request path of ssmem_alloc:
while (a->mem_size < size) a->mem_size <<= 1.  (The in-loop assert
against SSMEM_MEM_SIZE_MAX aborts the process when violated and is not
modelled; with mem_size = 0 the C loop never terminates, so the model
guards on 0 < memSize - that state never arises from a positive initial
chunk size.) -/
def ssmem_mem_size_grow (memSize size : Nat) : Nat :=
  if h : 0 < memSize ∧ memSize < size then ssmem_mem_size_grow (memSize * 2) size
  else memSize
termination_by size - memSize
decreasing_by omega

/-- Modelled from the spec: cache-line-aligned means 64-byte aligned
(CACHE_LINE_SIZE lives in the absent header ssmem.h). -/
def CACHE_LINE_SIZE : Nat := 64

/-- ssmem_alloc.  double and memSizeMax model the compile-time
SSMEM_MEM_SIZE_DOUBLE and SSMEM_MEM_SIZE_MAX; freshBase is the
cache-line-aligned address the backend returns for a new chunk.  The
collected-set pop decrements curr first; the post-decrement
cs->curr <= 0 test on the unsigned field holds exactly when curr was 1
before the decrement, which for the reachable states (collected sets
have curr >= 1) coincides with the Nat test newCurr = 0 used here.
Returns the updated allocator and the address handed out.  (The lazy
self-initialization on a null allocator argument, the PREFETCHW hint,
the zero-fill and persistence barriers, and the SSMEM_TS_INCR_ON bump
of the registry version are not part of the allocator-state change.) -/
def ssmem_alloc (double : Bool) (memSizeMax freshBase : Nat)
    (a : ssmem_allocator_t) (size : Nat) : ssmem_allocator_t × Nat :=
  match a.collected_set_list with
  | cs :: csRest =>
      let newCurr := cs.curr - 1
      let m := cs.set.getD newCurr 0
      if newCurr = 0 then
        (ssmem_free_set_make_avail
          { a with collected_set_list := csRest,
                   collected_set_num := a.collected_set_num - 1 }
          { cs with curr := newCurr }, m)
      else
        ({ a with collected_set_list := { cs with curr := newCurr } :: csRest }, m)
  | [] =>
      let a1 :=
        if a.mem_curr + size ≥ a.mem_size then
          let ms0 := if double then
              (if a.mem_size * 2 > memSizeMax then memSizeMax else a.mem_size * 2)
            else a.mem_size
          let ms1 := ssmem_mem_size_grow ms0 size
          { a with mem := freshBase,
                   mem_size := ms1,
                   mem_curr := 0,
                   tot_size := a.tot_size + ms1,
                   mem_chunks := freshBase :: a.mem_chunks }
        else a
      ({ a1 with mem_curr := a1.mem_curr + size }, a1.mem + a1.mem_curr)

/-- ssmem_free: if the head free-set is full (curr == size), take its
snapshot (reusing its buffer in place when non-null), run
ssmem_mem_reclaim, obtain a set from the available list (or fresh) and
install it as the new head; then store obj at index curr of the head and
increment curr.  (A null free_set_list would be dereferenced in C; it
never arises.) -/
def ssmem_free (g : ssmem_ts_globals) (a : ssmem_allocator_t) (obj : Nat) :
    ssmem_allocator_t :=
  match a.free_set_list with
  | [] => a
  | fs :: rest =>
      if fs.curr = fs.size then
        let fsSnap := { fs with ts_set := some (ssmem_ts_set_collect g fs.ts_set) }
        let a2 := (ssmem_mem_reclaim g.ts_list_len
                    { a with free_set_list := fsSnap :: rest }).1
        let pr := ssmem_free_set_get_avail a2 a2.fs_size
        let fsNew := pr.1
        { pr.2 with
            free_set_list :=
              { fsNew with set := fsNew.set.set fsNew.curr obj,
                           curr := fsNew.curr + 1 } :: pr.2.free_set_list,
            free_set_num := pr.2.free_set_num + 1 }
      else
        { a with free_set_list :=
            { fs with set := fs.set.set fs.curr obj, curr := fs.curr + 1 } :: rest }

/-- The free-set into which ssmem_free performs its store
fs->set[fs->curr++] = obj, at the moment of the store: the head when the
head is not full, otherwise the set obtained from
ssmem_free_set_get_avail after the snapshot and the reclamation pass
(mirrors the control flow of ssmem_free up to the store). -/
def ssmem_free_store_target (g : ssmem_ts_globals) (a : ssmem_allocator_t) :
    Option ssmem_free_set_t :=
  match a.free_set_list with
  | [] => none
  | fs :: rest =>
      if fs.curr = fs.size then
        let fsSnap := { fs with ts_set := some (ssmem_ts_set_collect g fs.ts_set) }
        let a2 := (ssmem_mem_reclaim g.ts_list_len
                    { a with free_set_list := fsSnap :: rest }).1
        some (ssmem_free_set_get_avail a2 a2.fs_size).1
      else some fs

/-- ssmem_release: allocate a record whose ts buffer is the trailing
ssmem_ts_list_len words of the node (uninitialized - junkBuf), collect
the snapshot into it, push it, bump released_num, and when the new count
reaches the SSMEM_GC_RLSE_SET_SIZE threshold (parameter rlse) run
ssmem_mem_reclaim. -/
def ssmem_release (rlse : Nat) (g : ssmem_ts_globals) (junkBuf : List Nat)
    (a : ssmem_allocator_t) (obj : Nat) : ssmem_allocator_t :=
  let rel : ssmem_released_t :=
    { mem := obj, ts_set := ssmem_ts_set_collect_loop g.ts_list_len g.ts_list junkBuf }
  let rn := a.released_num + 1
  let a1 := { a with released_mem_list := rel :: a.released_mem_list,
                     released_num := rn }
  if rlse ≤ rn then (ssmem_mem_reclaim g.ts_list_len a1).1 else a1

/-- Well-formedness of one free-set container: capacity matches the
allocator's fs_size, the pointer buffer has exactly that capacity, and
the fill never exceeds it. -/
def fsWF (cap : Nat) (fs : ssmem_free_set_t) : Prop :=
  fs.size = cap ∧ fs.set.length = fs.size ∧ fs.curr ≤ fs.size

/-- Structural invariant of an allocator: positive free-set capacity, a
non-empty free-set list, and every container on the free, collected and
available lists well-formed. -/
def allocInv (a : ssmem_allocator_t) : Prop :=
  1 ≤ a.fs_size ∧ a.free_set_list ≠ [] ∧
  (∀ fs ∈ a.free_set_list, fsWF a.fs_size fs) ∧
  (∀ fs ∈ a.collected_set_list, fsWF a.fs_size fs) ∧
  (∀ fs ∈ a.available_set_list, fsWF a.fs_size fs)

/-- States of one allocator reachable from initialization (with a
positive free-set capacity) by any interleaving of alloc, free and
release, under arbitrary registry contents and configuration at each
step. -/
inductive ssmem_reach : ssmem_allocator_t → Prop
  | init (base size fsSize : Nat) (h : 1 ≤ fsSize) :
      ssmem_reach (ssmem_alloc_init_fs_size base size fsSize)
  | alloc (a : ssmem_allocator_t) (double : Bool) (memSizeMax freshBase size : Nat)
      (h : ssmem_reach a) : ssmem_reach (ssmem_alloc double memSizeMax freshBase a size).1
  | free (a : ssmem_allocator_t) (g : ssmem_ts_globals) (obj : Nat)
      (h : ssmem_reach a) : ssmem_reach (ssmem_free g a obj)
  | release (a : ssmem_allocator_t) (rlse : Nat) (g : ssmem_ts_globals)
      (junkBuf : List Nat) (obj : Nat)
      (h : ssmem_reach a) : ssmem_reach (ssmem_release rlse g junkBuf a obj)

/-- The released pass either leaves the released fields unchanged or, when
the count is positive, the list has at least two records and the head
snapshot is elementwise strictly newer, keeps only the head record. -/
theorem relStep_char (len : Nat) (l : List ssmem_released_t) (n : Nat) :
    relStep len l n = (l, n) ∨
    (∃ r0 r1 rest, l = r0 :: r1 :: rest ∧ 0 < n ∧
      ssmem_ts_compare len r0.ts_set r1.ts_set = true ∧
      relStep len l n = ([r0], 1)) := by
  rcases l with _ | ⟨r0, rest0⟩
  · left; simp [relStep]
  · rcases rest0 with _ | ⟨r1, rest⟩
    · left; simp [relStep]
    · by_cases hc : ssmem_ts_compare len r0.ts_set r1.ts_set
      · by_cases hn : 0 < n
        · right
          exact ⟨r0, r1, rest, rfl, hn, hc, by simp [relStep, hn, hc]⟩
        · left; simp [relStep, hn]
      · left; simp [relStep, hc]

/-- Applying the released pass to its own output changes nothing. -/
theorem relStep_idem (len : Nat) (l : List ssmem_released_t) (n : Nat) :
    relStep len (relStep len l n).1 (relStep len l n).2 = relStep len l n := by
  rcases relStep_char len l n with h | ⟨r0, r1, rest, hl, hn, hc, h⟩
  · rw [h]; exact h
  · rw [h]; simp [relStep]

/-- The free-set pass either returns its inputs with gced = 0 or, when
the first two sets both carry snapshots and the head snapshot is
elementwise strictly newer, promotes the whole suffix after the head. -/
theorem fsStep_char (len : Nat) (fsl : List ssmem_free_set_t) (fsnum : Nat)
    (csl : List ssmem_free_set_t) (csnum : Nat) :
    fsStep len fsl fsnum csl csnum = ⟨fsl, fsnum, csl, csnum, 0⟩ ∨
    (∃ f0 f1 rest ts0 ts1, fsl = f0 :: f1 :: rest ∧ f0.ts_set = some ts0 ∧
      f1.ts_set = some ts1 ∧ ssmem_ts_compare len ts0 ts1 = true ∧
      fsStep len fsl fsnum csl csnum =
        ⟨[f0], 1, csl ++ (f1 :: rest), csnum + (fsnum - 1), fsnum - 1⟩) := by
  rcases fsl with _ | ⟨f0, rest0⟩
  · left; simp [fsStep]
  · rcases h0 : f0.ts_set with _ | ts0
    · left; simp [fsStep, h0]
    · rcases rest0 with _ | ⟨f1, rest⟩
      · left; simp [fsStep, h0]
      · rcases h1 : f1.ts_set with _ | ts1
        · left; simp [fsStep, h0, h1]
        · by_cases hc : ssmem_ts_compare len ts0 ts1
          · right
            exact ⟨f0, f1, rest, ts0, ts1, rfl, h0, h1, hc,
              by simp [fsStep, h0, h1, hc]⟩
          · left; simp [fsStep, h0, h1, hc]

/-- Applying the free-set pass to its own output promotes nothing. -/
theorem fsStep_idem (len : Nat) (fsl : List ssmem_free_set_t) (fsnum : Nat)
    (csl : List ssmem_free_set_t) (csnum : Nat) :
    fsStep len (fsStep len fsl fsnum csl csnum).fsl
      (fsStep len fsl fsnum csl csnum).fsnum
      (fsStep len fsl fsnum csl csnum).csl
      (fsStep len fsl fsnum csl csnum).csnum =
    ⟨(fsStep len fsl fsnum csl csnum).fsl,
      (fsStep len fsl fsnum csl csnum).fsnum,
      (fsStep len fsl fsnum csl csnum).csl,
      (fsStep len fsl fsnum csl csnum).csnum, 0⟩ := by
  rcases fsStep_char len fsl fsnum csl csnum with h | ⟨f0, f1, rest, ts0, ts1, hl, h0, h1, hc, h⟩
  · rw [h]; exact h
  · rw [h]; simp [fsStep, h0]

/-- ssmem_mem_reclaim only rewrites the released, free-set and
collected-set fields; everything else of the allocator is untouched. -/
theorem reclaim_untouched (len : Nat) (a : ssmem_allocator_t) :
    (ssmem_mem_reclaim len a).1.mem = a.mem ∧
    (ssmem_mem_reclaim len a).1.mem_curr = a.mem_curr ∧
    (ssmem_mem_reclaim len a).1.mem_size = a.mem_size ∧
    (ssmem_mem_reclaim len a).1.fs_size = a.fs_size ∧
    (ssmem_mem_reclaim len a).1.mem_chunks = a.mem_chunks ∧
    (ssmem_mem_reclaim len a).1.available_set_list = a.available_set_list := by
  exact ⟨rfl, rfl, rfl, rfl, rfl, rfl⟩

/-- Every set on the free-set list of the reclaim output was on the
input free-set list, and likewise each collected set came from the input
collected or free list; the output free-set list is never empty when the
input was not. -/
theorem reclaim_members (len : Nat) (a : ssmem_allocator_t) :
    (∀ fs ∈ (ssmem_mem_reclaim len a).1.free_set_list, fs ∈ a.free_set_list) ∧
    (∀ fs ∈ (ssmem_mem_reclaim len a).1.collected_set_list,
      fs ∈ a.collected_set_list ∨ fs ∈ a.free_set_list) ∧
    (a.free_set_list ≠ [] → (ssmem_mem_reclaim len a).1.free_set_list ≠ []) := by
  have hchar := fsStep_char len a.free_set_list a.free_set_num
    a.collected_set_list a.collected_set_num
  rcases hchar with h | ⟨f0, f1, rest, ts0, ts1, hl, h0, h1, hc, h⟩
  · constructor
    · intro fs hm
      simpa [ssmem_mem_reclaim, h] using hm
    constructor
    · intro fs hm
      left
      simpa [ssmem_mem_reclaim, h] using hm
    · intro hne
      simp [ssmem_mem_reclaim, h, hne]
  · constructor
    · intro fs hm
      simp [ssmem_mem_reclaim, h] at hm
      simp [hm, hl]
    constructor
    · intro fs hm
      simp [ssmem_mem_reclaim, h] at hm
      rcases hm with hm | hm
      · exact Or.inl hm
      · right; simp [hl, hm]
    · intro hne
      simp [ssmem_mem_reclaim, h]

/-- The structural invariant holds after initialization with a positive
free-set capacity. -/
theorem allocInv_init (base size fsSize : Nat) (h : 1 ≤ fsSize) :
    allocInv (ssmem_alloc_init_fs_size base size fsSize) := by
  refine ⟨h, by simp [ssmem_alloc_init_fs_size], ?_, ?_, ?_⟩ <;>
    simp [ssmem_alloc_init_fs_size, ssmem_free_set_new, fsWF]

/-- ssmem_mem_reclaim preserves the structural invariant. -/
theorem allocInv_reclaim (len : Nat) (a : ssmem_allocator_t) (h : allocInv a) :
    allocInv (ssmem_mem_reclaim len a).1 := by
  obtain ⟨h1, h2, h3, h4, h5⟩ := h
  obtain ⟨hm1, hm2, hm3⟩ := reclaim_members len a
  obtain ⟨-, -, -, hfs, -, hav⟩ := reclaim_untouched len a
  refine ⟨by rw [hfs]; exact h1, hm3 h2, ?_, ?_, ?_⟩
  · intro fs hm
    rw [hfs]
    exact h3 fs (hm1 fs hm)
  · intro fs hm
    rw [hfs]
    rcases hm2 fs hm with hc | hc
    · exact h4 fs hc
    · exact h3 fs hc
  · intro fs hm
    rw [hfs]
    rw [hav] at hm
    exact h5 fs hm

/-- Replacing the head free-set's snapshot buffer preserves the
structural invariant (fsWF never looks at ts_set). -/
theorem allocInv_snapHead (a : ssmem_allocator_t) (fs : ssmem_free_set_t)
    (rest : List ssmem_free_set_t) (hfl : a.free_set_list = fs :: rest)
    (h : allocInv a) (ts : List Nat) :
    allocInv { a with free_set_list := { fs with ts_set := some ts } :: rest } := by
  obtain ⟨h1, h2, h3, h4, h5⟩ := h
  refine ⟨h1, by simp, ?_, h4, h5⟩
  intro q hq
  simp at hq
  rcases hq with hq | hq
  · have := h3 fs (by simp [hfl])
    rw [hq]
    exact this
  · exact h3 q (by simp [hfl, hq])

/-- ssmem_free_set_get_avail hands back a well-formed empty container
and an allocator satisfying the invariant with the free-set and
collected-set lists, counters and fs_size unchanged. -/
theorem get_avail_spec (a : ssmem_allocator_t) (h : allocInv a) :
    fsWF a.fs_size (ssmem_free_set_get_avail a a.fs_size).1 ∧
    (ssmem_free_set_get_avail a a.fs_size).1.curr = 0 ∧
    allocInv (ssmem_free_set_get_avail a a.fs_size).2 ∧
    (ssmem_free_set_get_avail a a.fs_size).2.fs_size = a.fs_size ∧
    (ssmem_free_set_get_avail a a.fs_size).2.free_set_list = a.free_set_list ∧
    (ssmem_free_set_get_avail a a.fs_size).2.collected_set_list = a.collected_set_list := by
  obtain ⟨h1, h2, h3, h4, h5⟩ := h
  rcases hav : a.available_set_list with _ | ⟨q, qs⟩
  · have he : ssmem_free_set_get_avail a a.fs_size = (ssmem_free_set_new a.fs_size, a) := by
      simp [ssmem_free_set_get_avail, hav]
    rw [he]
    exact ⟨⟨rfl, by simp [ssmem_free_set_new], by simp [ssmem_free_set_new]⟩,
      rfl, ⟨h1, h2, h3, h4, h5⟩, rfl, rfl, rfl⟩
  · have he : ssmem_free_set_get_avail a a.fs_size =
        ({ q with curr := 0 }, { a with available_set_list := qs }) := by
      simp [ssmem_free_set_get_avail, hav]
    obtain ⟨hq1, hq2, hq3⟩ := h5 q (by simp [hav])
    rw [he]
    refine ⟨⟨hq1, hq2, by simp⟩, rfl, ?_, rfl, rfl, rfl⟩
    refine ⟨h1, by simpa using h2, ?_, ?_, ?_⟩
    · exact fun fs hm => h3 fs hm
    · exact fun fs hm => h4 fs hm
    · exact fun fs hm => h5 fs (by simp [hav]; exact Or.inr hm)


/-- The state ssmem_free builds on its full-head path, for an arbitrary
intermediate allocator a2 (the post-reclaim state): take a container
from the available list (or fresh), push obj into it and install it as
the new head.  The invariant is preserved. -/
theorem allocInv_free_full_aux (a2 : ssmem_allocator_t) (obj : Nat) (h : allocInv a2) :
    allocInv { (ssmem_free_set_get_avail a2 a2.fs_size).2 with
        free_set_list :=
          { (ssmem_free_set_get_avail a2 a2.fs_size).1 with
              set := (ssmem_free_set_get_avail a2 a2.fs_size).1.set.set
                       (ssmem_free_set_get_avail a2 a2.fs_size).1.curr obj,
              curr := (ssmem_free_set_get_avail a2 a2.fs_size).1.curr + 1 }
            :: (ssmem_free_set_get_avail a2 a2.fs_size).2.free_set_list,
        free_set_num := (ssmem_free_set_get_avail a2 a2.fs_size).2.free_set_num + 1 } := by
  obtain ⟨hwf, hcurr0, hinv3, hfs3, hfl3, hcl3⟩ := get_avail_spec a2 h
  obtain ⟨hw1, hw2, hw3⟩ := hwf
  obtain ⟨g1, g2, g3, g4, g5⟩ := hinv3
  have hpos : 1 ≤ (ssmem_free_set_get_avail a2 a2.fs_size).1.size := by
    rw [hw1]; exact h.1
  refine ⟨by rw [hfs3]; exact h.1, by simp, ?_, ?_, ?_⟩
  · intro q hq
    simp at hq
    rcases hq with hq | hq
    · rw [hq]
      refine ⟨by rw [hfs3]; exact hw1, by simp [hw2], ?_⟩
      simp
      omega
    · have := g3 q hq
      rw [hfs3] at this ⊢
      exact this
  · intro q hq
    have := g4 q hq
    rw [hfs3] at this ⊢
    exact this
  · intro q hq
    have := g5 q hq
    rw [hfs3] at this ⊢
    exact this

/-- ssmem_free preserves the structural invariant. -/
theorem allocInv_free (g : ssmem_ts_globals) (a : ssmem_allocator_t) (obj : Nat)
    (h : allocInv a) : allocInv (ssmem_free g a obj) := by
  obtain ⟨am, amc, ams, ats, afs, amch, fsl, fsn, csl, csn, avl, rl, rn⟩ := a
  obtain ⟨h1, h2, h3, h4, h5⟩ := h
  rcases fsl with _ | ⟨fs, rest⟩
  · exact absurd rfl h2
  · simp only [ssmem_free]
    by_cases hfull : fs.curr = fs.size
    · rw [if_pos hfull]
      have hinv1 : allocInv
          (⟨am, amc, ams, ats, afs, amch,
            { fs with ts_set := some (ssmem_ts_set_collect g fs.ts_set) } :: rest,
            fsn, csl, csn, avl, rl, rn⟩ : ssmem_allocator_t) :=
        allocInv_snapHead _ fs rest rfl ⟨h1, h2, h3, h4, h5⟩ _
      have hinv2 := allocInv_reclaim g.ts_list_len _ hinv1
      exact allocInv_free_full_aux _ obj hinv2
    · rw [if_neg hfull]
      have hh := h3 fs (by simp)
      obtain ⟨hh1, hh2, hh3⟩ := hh
      refine ⟨h1, by simp, ?_, h4, h5⟩
      intro q hq
      simp at hq
      rcases hq with hq | hq
      · rw [hq]
        refine ⟨hh1, by simp [hh2], ?_⟩
        simp
        omega
      · exact h3 q (by simp [hq])

/-- ssmem_alloc preserves the structural invariant. -/
theorem allocInv_alloc (double : Bool) (memSizeMax freshBase : Nat)
    (a : ssmem_allocator_t) (size : Nat) (h : allocInv a) :
    allocInv (ssmem_alloc double memSizeMax freshBase a size).1 := by
  obtain ⟨am, amc, ams, ats, afs, amch, fsl, fsn, csl, csn, avl, rl, rn⟩ := a
  obtain ⟨h1, h2, h3, h4, h5⟩ := h
  rcases csl with _ | ⟨cs, csRest⟩
  · simp only [ssmem_alloc]
    by_cases hg : amc + size ≥ ams
    · rw [if_pos hg]
      exact ⟨h1, h2, h3, h4, h5⟩
    · rw [if_neg hg]
      exact ⟨h1, h2, h3, h4, h5⟩
  · obtain ⟨hc1, hc2, hc3⟩ := h4 cs (by simp)
    simp only [ssmem_alloc]
    by_cases hz : cs.curr - 1 = 0
    · rw [if_pos hz]
      refine ⟨h1, h2, h3, ?_, ?_⟩
      · intro q hq
        exact h4 q (by simp; right; simpa using hq)
      · intro q hq
        simp [ssmem_free_set_make_avail] at hq
        rcases hq with hq | hq
        · rw [hq]
          exact ⟨hc1, hc2, by simp⟩
        · exact h5 q hq
    · rw [if_neg hz]
      refine ⟨h1, h2, h3, ?_, h5⟩
      intro q hq
      simp at hq
      rcases hq with hq | hq
      · rw [hq]
        exact ⟨hc1, hc2, by simp; omega⟩
      · exact h4 q (by simp [hq])

/-- ssmem_release preserves the structural invariant. -/
theorem allocInv_release (rlse : Nat) (g : ssmem_ts_globals) (junkBuf : List Nat)
    (a : ssmem_allocator_t) (obj : Nat) (h : allocInv a) :
    allocInv (ssmem_release rlse g junkBuf a obj) := by
  obtain ⟨h1, h2, h3, h4, h5⟩ := h
  have hinv1 : allocInv { a with
      released_mem_list :=
        ({ mem := obj,
           ts_set := ssmem_ts_set_collect_loop g.ts_list_len g.ts_list junkBuf } :
          ssmem_released_t) :: a.released_mem_list,
      released_num := a.released_num + 1 } :=
    ⟨h1, by simpa using h2, fun fs hm => h3 fs hm, fun fs hm => h4 fs hm,
      fun fs hm => h5 fs hm⟩
  simp only [ssmem_release]
  by_cases ht : rlse ≤ a.released_num + 1
  · rw [if_pos ht]
    exact allocInv_reclaim _ _ hinv1
  · rw [if_neg ht]
    exact hinv1

/-- Every reachable state satisfies the structural invariant. -/
theorem reach_allocInv (a : ssmem_allocator_t) (h : ssmem_reach a) : allocInv a := by
  induction h with
  | init base size fsSize h => exact allocInv_init base size fsSize h
  | alloc a double memSizeMax freshBase size h ih =>
      exact allocInv_alloc double memSizeMax freshBase a size ih
  | free a g obj h ih => exact allocInv_free g a obj ih
  | release a rlse g junkBuf obj h ih => exact allocInv_release rlse g junkBuf a obj ih

/-- Claim C1: on any allocator whose head free-set F0 and successor F1
both carry snapshots covering every registered thread, if
F0.snapshot[t] > F1.snapshot[t] for every thread id t then
ssmem_mem_reclaim unlinks the entire suffix F1..Fk from the free-set
list (leaving only F0), appends it in order to the tail of the
collected-set list, sets free_set_num to 1, increases collected_set_num
by k and returns k; if the elementwise strict comparison fails, the
free-set and collected-set lists and both counters are unchanged and 0
is returned. -/
theorem c1_reclaim_promotes_suffix (len : Nat) (a : ssmem_allocator_t)
    (F0 F1 : ssmem_free_set_t) (rest : List ssmem_free_set_t)
    (ts0 ts1 : List Nat)
    (hl : a.free_set_list = F0 :: F1 :: rest)
    (h0 : F0.ts_set = some ts0) (h1 : F1.ts_set = some ts1)
    (hlen0 : len ≤ ts0.length) (hlen1 : len ≤ ts1.length)
    (hnum : a.free_set_num = a.free_set_list.length) :
    (ssmem_ts_compare len ts0 ts1 = true →
      (ssmem_mem_reclaim len a).1.free_set_list = [F0] ∧
      (ssmem_mem_reclaim len a).1.collected_set_list =
        a.collected_set_list ++ (F1 :: rest) ∧
      (ssmem_mem_reclaim len a).1.free_set_num = 1 ∧
      (ssmem_mem_reclaim len a).1.collected_set_num =
        a.collected_set_num + (F1 :: rest).length ∧
      (ssmem_mem_reclaim len a).2 = (F1 :: rest).length) ∧
    (ssmem_ts_compare len ts0 ts1 = false →
      (ssmem_mem_reclaim len a).1.free_set_list = a.free_set_list ∧
      (ssmem_mem_reclaim len a).1.collected_set_list = a.collected_set_list ∧
      (ssmem_mem_reclaim len a).1.free_set_num = a.free_set_num ∧
      (ssmem_mem_reclaim len a).1.collected_set_num = a.collected_set_num ∧
      (ssmem_mem_reclaim len a).2 = 0) := by
  have hk : (F1 :: rest).length = a.free_set_num - 1 := by
    rw [hnum, hl]; simp
  constructor
  · intro hc
    have he : fsStep len a.free_set_list a.free_set_num a.collected_set_list
        a.collected_set_num =
        ⟨[F0], 1, a.collected_set_list ++ (F1 :: rest),
          a.collected_set_num + (a.free_set_num - 1), a.free_set_num - 1⟩ := by
      simp [fsStep, hl, h0, h1, hc]
    refine ⟨?_, ?_, ?_, ?_, ?_⟩ <;>
      simp [ssmem_mem_reclaim, he, hk]
  · intro hc
    have he : fsStep len a.free_set_list a.free_set_num a.collected_set_list
        a.collected_set_num =
        ⟨a.free_set_list, a.free_set_num, a.collected_set_list,
          a.collected_set_num, 0⟩ := by
      simp [fsStep, hl, h0, h1, hc]
    refine ⟨?_, ?_, ?_, ?_, ?_⟩ <;>
      simp [ssmem_mem_reclaim, he]

/-- Witness for C1 at a concrete allocator with two snapshotted free
sets and a strictly newer head snapshot: the suffix is promoted. -/
theorem c1_witness :
    ((ssmem_mem_reclaim 1
        { mem := 0, mem_curr := 0, mem_size := 64, tot_size := 64, fs_size := 1,
          mem_chunks := [0],
          free_set_list := [⟨1, 1, [11], some [2]⟩, ⟨1, 1, [12], some [1]⟩],
          free_set_num := 2,
          collected_set_list := [], collected_set_num := 0,
          available_set_list := [], released_mem_list := [],
          released_num := 0 }).1.free_set_list = [⟨1, 1, [11], some [2]⟩] ∧
      (ssmem_mem_reclaim 1
        { mem := 0, mem_curr := 0, mem_size := 64, tot_size := 64, fs_size := 1,
          mem_chunks := [0],
          free_set_list := [⟨1, 1, [11], some [2]⟩, ⟨1, 1, [12], some [1]⟩],
          free_set_num := 2,
          collected_set_list := [], collected_set_num := 0,
          available_set_list := [], released_mem_list := [],
          released_num := 0 }).1.collected_set_list = [⟨1, 1, [12], some [1]⟩] ∧
      (ssmem_mem_reclaim 1
        { mem := 0, mem_curr := 0, mem_size := 64, tot_size := 64, fs_size := 1,
          mem_chunks := [0],
          free_set_list := [⟨1, 1, [11], some [2]⟩, ⟨1, 1, [12], some [1]⟩],
          free_set_num := 2,
          collected_set_list := [], collected_set_num := 0,
          available_set_list := [], released_mem_list := [],
          released_num := 0 }).1.free_set_num = 1 ∧
      (ssmem_mem_reclaim 1
        { mem := 0, mem_curr := 0, mem_size := 64, tot_size := 64, fs_size := 1,
          mem_chunks := [0],
          free_set_list := [⟨1, 1, [11], some [2]⟩, ⟨1, 1, [12], some [1]⟩],
          free_set_num := 2,
          collected_set_list := [], collected_set_num := 0,
          available_set_list := [], released_mem_list := [],
          released_num := 0 }).1.collected_set_num = 0 + 1 ∧
      (ssmem_mem_reclaim 1
        { mem := 0, mem_curr := 0, mem_size := 64, tot_size := 64, fs_size := 1,
          mem_chunks := [0],
          free_set_list := [⟨1, 1, [11], some [2]⟩, ⟨1, 1, [12], some [1]⟩],
          free_set_num := 2,
          collected_set_list := [], collected_set_num := 0,
          available_set_list := [], released_mem_list := [],
          released_num := 0 }).2 = 1) := by
  have h := (c1_reclaim_promotes_suffix 1
    { mem := 0, mem_curr := 0, mem_size := 64, tot_size := 64, fs_size := 1,
      mem_chunks := [0],
      free_set_list := [⟨1, 1, [11], some [2]⟩, ⟨1, 1, [12], some [1]⟩],
      free_set_num := 2,
      collected_set_list := [], collected_set_num := 0,
      available_set_list := [], released_mem_list := [], released_num := 0 }
    ⟨1, 1, [11], some [2]⟩ ⟨1, 1, [12], some [1]⟩ [] [2] [1]
    rfl rfl rfl (by decide) (by decide) rfl).1 (by decide)
  obtain ⟨w1, w2, w3, w4, w5⟩ := h
  exact ⟨w1, by simpa using w2, w3, by simpa using w4, by simpa using w5⟩

/-- Claim C7: when ssmem_release pushes a record and the new count
reaches the rlse threshold, a reclamation pass runs; in it, if the new
head record R0 carries a snapshot elementwise strictly greater than its
successor R1, the whole tail R1.. is freed, only R0 stays and
released_num becomes 1; otherwise the released list is exactly the push
result. -/
theorem c7_release_reclaims_suffix (rlse : Nat) (g : ssmem_ts_globals)
    (junkBuf : List Nat) (a : ssmem_allocator_t) (obj : Nat)
    (R1 : ssmem_released_t) (rrest : List ssmem_released_t)
    (hrel : a.released_mem_list = R1 :: rrest)
    (hth : rlse ≤ a.released_num + 1) :
    (ssmem_ts_compare g.ts_list_len
        (ssmem_ts_set_collect_loop g.ts_list_len g.ts_list junkBuf) R1.ts_set = true →
      (ssmem_release rlse g junkBuf a obj).released_mem_list =
        [⟨obj, ssmem_ts_set_collect_loop g.ts_list_len g.ts_list junkBuf⟩] ∧
      (ssmem_release rlse g junkBuf a obj).released_num = 1) ∧
    (ssmem_ts_compare g.ts_list_len
        (ssmem_ts_set_collect_loop g.ts_list_len g.ts_list junkBuf) R1.ts_set = false →
      (ssmem_release rlse g junkBuf a obj).released_mem_list =
        ⟨obj, ssmem_ts_set_collect_loop g.ts_list_len g.ts_list junkBuf⟩ ::
          R1 :: rrest ∧
      (ssmem_release rlse g junkBuf a obj).released_num = a.released_num + 1) := by
  constructor
  · intro hc
    have he : relStep g.ts_list_len
        ((⟨obj, ssmem_ts_set_collect_loop g.ts_list_len g.ts_list junkBuf⟩ :
          ssmem_released_t) :: R1 :: rrest) (a.released_num + 1) =
        ([⟨obj, ssmem_ts_set_collect_loop g.ts_list_len g.ts_list junkBuf⟩], 1) := by
      simp [relStep, hc]
    constructor <;>
      simp [ssmem_release, hth, ssmem_mem_reclaim, he, hrel]
  · intro hc
    have he : relStep g.ts_list_len
        ((⟨obj, ssmem_ts_set_collect_loop g.ts_list_len g.ts_list junkBuf⟩ :
          ssmem_released_t) :: R1 :: rrest) (a.released_num + 1) =
        ((⟨obj, ssmem_ts_set_collect_loop g.ts_list_len g.ts_list junkBuf⟩ :
          ssmem_released_t) :: R1 :: rrest, a.released_num + 1) := by
      simp [relStep, hc]
    constructor <;>
      simp [ssmem_release, hth, ssmem_mem_reclaim, he, hrel]

/-- Witness for C7 at a concrete allocator: the pushed record's fresh
snapshot strictly dominates the old head's, so the old records are
freed and only the new record remains. -/
theorem c7_witness :
    (ssmem_release 2 ⟨[⟨0, 5⟩], 1⟩ [0]
        { mem := 0, mem_curr := 0, mem_size := 64, tot_size := 64, fs_size := 1,
          mem_chunks := [0],
          free_set_list := [ssmem_free_set_new 1], free_set_num := 1,
          collected_set_list := [], collected_set_num := 0,
          available_set_list := [],
          released_mem_list := [⟨99, [1]⟩],
          released_num := 1 } 42).released_mem_list = [⟨42, [5]⟩] ∧
    (ssmem_release 2 ⟨[⟨0, 5⟩], 1⟩ [0]
        { mem := 0, mem_curr := 0, mem_size := 64, tot_size := 64, fs_size := 1,
          mem_chunks := [0],
          free_set_list := [ssmem_free_set_new 1], free_set_num := 1,
          collected_set_list := [], collected_set_num := 0,
          available_set_list := [],
          released_mem_list := [⟨99, [1]⟩],
          released_num := 1 } 42).released_num = 1 := by
  have h := (c7_release_reclaims_suffix 2 ⟨[⟨0, 5⟩], 1⟩ [0]
    { mem := 0, mem_curr := 0, mem_size := 64, tot_size := 64, fs_size := 1,
      mem_chunks := [0],
      free_set_list := [ssmem_free_set_new 1], free_set_num := 1,
      collected_set_list := [], collected_set_num := 0,
      available_set_list := [],
      released_mem_list := [⟨99, [1]⟩], released_num := 1 } 42
    ⟨99, [1]⟩ [] rfl (by decide)).1 (by decide)
  exact h

/-- Claim C8 (amended): ssmem_mem_reclaim is idempotent - a second
back-to-back call returns 0 and changes nothing, including the released
list; and whenever the free-set list holds fewer than two snapshotted
sets a call performs no promotion: it returns 0 and leaves the free-set
and collected-set lists and counters unchanged (reclaimable released
records may still be freed by that same call). -/
theorem c8_reclaim_idempotent (len : Nat) (a : ssmem_allocator_t) :
    (ssmem_mem_reclaim len (ssmem_mem_reclaim len a).1 =
      ((ssmem_mem_reclaim len a).1, 0)) ∧
    ((a.free_set_list.filter (fun f => f.ts_set.isSome)).length < 2 →
      (ssmem_mem_reclaim len a).2 = 0 ∧
      (ssmem_mem_reclaim len a).1.free_set_list = a.free_set_list ∧
      (ssmem_mem_reclaim len a).1.collected_set_list = a.collected_set_list ∧
      (ssmem_mem_reclaim len a).1.free_set_num = a.free_set_num ∧
      (ssmem_mem_reclaim len a).1.collected_set_num = a.collected_set_num) := by
  constructor
  · have hr := relStep_idem len a.released_mem_list a.released_num
    have hf := fsStep_idem len a.free_set_list a.free_set_num
      a.collected_set_list a.collected_set_num
    simp only [ssmem_mem_reclaim]
    rw [hr, hf]
  · intro hlt
    rcases fsStep_char len a.free_set_list a.free_set_num a.collected_set_list
        a.collected_set_num with he | ⟨f0, f1, rest, ts0, ts1, hl2, h0, h1, hc, he⟩
    · exact ⟨by simp [ssmem_mem_reclaim, he], by simp [ssmem_mem_reclaim, he],
        by simp [ssmem_mem_reclaim, he], by simp [ssmem_mem_reclaim, he],
        by simp [ssmem_mem_reclaim, he]⟩
    · exfalso
      rw [hl2] at hlt
      simp [h0, h1] at hlt
      omega

/-- Witness for C8 at a fresh allocator (head set unsnapshotted): both
the idempotence and the no-promotion conclusions hold. -/
theorem c8_witness :
    (ssmem_mem_reclaim 0
        (ssmem_mem_reclaim 0 (ssmem_alloc_init_fs_size 0 64 1)).1 =
      ((ssmem_mem_reclaim 0 (ssmem_alloc_init_fs_size 0 64 1)).1, 0)) ∧
    (ssmem_mem_reclaim 0 (ssmem_alloc_init_fs_size 0 64 1)).2 = 0 := by
  have h := c8_reclaim_idempotent 0 (ssmem_alloc_init_fs_size 0 64 1)
  exact ⟨h.1, (h.2 (by decide)).1⟩

/-- Counterexample to C8 as stated: in a state whose free-set list holds
fewer than two snapshotted sets but whose released list has two records
with the head snapshot strictly newer, ssmem_mem_reclaim is not a no-op:
it frees the old released record. -/
theorem c8_counterexample :
    (({ mem := 0, mem_curr := 0, mem_size := 64, tot_size := 64, fs_size := 1,
          mem_chunks := [0],
          free_set_list := [⟨1, 0, [0], none⟩], free_set_num := 1,
          collected_set_list := [], collected_set_num := 0,
          available_set_list := [],
          released_mem_list := [⟨7, [2]⟩, ⟨8, [1]⟩],
          released_num := 2 } : ssmem_allocator_t).free_set_list.filter
            (fun f => f.ts_set.isSome)).length < 2 ∧
    (ssmem_mem_reclaim 1
        { mem := 0, mem_curr := 0, mem_size := 64, tot_size := 64, fs_size := 1,
          mem_chunks := [0],
          free_set_list := [⟨1, 0, [0], none⟩], free_set_num := 1,
          collected_set_list := [], collected_set_num := 0,
          available_set_list := [],
          released_mem_list := [⟨7, [2]⟩, ⟨8, [1]⟩],
          released_num := 2 }).1 ≠
      { mem := 0, mem_curr := 0, mem_size := 64, tot_size := 64, fs_size := 1,
        mem_chunks := [0],
        free_set_list := [⟨1, 0, [0], none⟩], free_set_num := 1,
        collected_set_list := [], collected_set_num := 0,
        available_set_list := [],
        released_mem_list := [⟨7, [2]⟩, ⟨8, [1]⟩],
        released_num := 2 } := by
  constructor
  · decide
  · decide

/-- On the full-head path, the container ssmem_free stores into (the one
ssmem_free_set_get_avail returns) has fill 0, strictly below its
positive capacity, and a buffer of exactly that capacity. -/
theorem store_target_full_aux (a2 : ssmem_allocator_t) (h : allocInv a2) :
    (ssmem_free_set_get_avail a2 a2.fs_size).1.curr <
      (ssmem_free_set_get_avail a2 a2.fs_size).1.size ∧
    (ssmem_free_set_get_avail a2 a2.fs_size).1.set.length =
      (ssmem_free_set_get_avail a2 a2.fs_size).1.size := by
  obtain ⟨⟨hw1, hw2, hw3⟩, hcurr0, _, _, _, _⟩ := get_avail_spec a2 h
  refine ⟨?_, hw2⟩
  rw [hcurr0, hw1]
  exact h.1

/-- Claim C10: in every reachable allocator state, the store
fs->set[fs->curr++] = obj performed by ssmem_free hits an index strictly
below the target set's capacity, and the target's pointer buffer has
exactly that capacity - ssmem_free never writes past a free-set's
bounds. -/
theorem c10_free_store_in_bounds (a : ssmem_allocator_t) (h : ssmem_reach a)
    (g : ssmem_ts_globals) (fs : ssmem_free_set_t)
    (ht : ssmem_free_store_target g a = some fs) :
    fs.curr < fs.size ∧ fs.set.length = fs.size := by
  have hinv := reach_allocInv a h
  clear h
  obtain ⟨am, amc, ams, ats, afs, amch, fsl, fsn, csl, csn, avl, rl, rn⟩ := a
  obtain ⟨h1, h2, h3, h4, h5⟩ := hinv
  rcases fsl with _ | ⟨f, rest⟩
  · exact absurd rfl h2
  · simp only [ssmem_free_store_target] at ht
    by_cases hfull : f.curr = f.size
    · rw [if_pos hfull] at ht
      have hfs := (Option.some.inj ht).symm
      subst hfs
      have hinv1 : allocInv
          (⟨am, amc, ams, ats, afs, amch,
            { f with ts_set := some (ssmem_ts_set_collect g f.ts_set) } :: rest,
            fsn, csl, csn, avl, rl, rn⟩ : ssmem_allocator_t) :=
        allocInv_snapHead _ f rest rfl ⟨h1, h2, h3, h4, h5⟩ _
      exact store_target_full_aux _ (allocInv_reclaim g.ts_list_len _ hinv1)
    · rw [if_neg hfull] at ht
      have hfs := (Option.some.inj ht).symm
      subst hfs
      obtain ⟨-, hlenf, hle⟩ := h3 fs (by simp)
      exact ⟨Nat.lt_of_le_of_ne hle hfull, hlenf⟩

/-- Witness for C10 at the freshly initialized capacity-1 allocator: the
store goes to index 0 of a buffer of capacity 1. -/
theorem c10_witness :
    (ssmem_free_set_new 1).curr < (ssmem_free_set_new 1).size ∧
    (ssmem_free_set_new 1).set.length = (ssmem_free_set_new 1).size :=
  c10_free_store_in_bounds (ssmem_alloc_init_fs_size 0 64 1)
    (ssmem_reach.init 0 64 1 (by decide)) ⟨[], 0⟩ (ssmem_free_set_new 1) rfl

/-- ssmem_mem_reclaim leaves the available-set list in place. -/
theorem reclaim_avail (len : Nat) (a : ssmem_allocator_t) :
    (ssmem_mem_reclaim len a).1.available_set_list = a.available_set_list := rfl

/-- ssmem_mem_reclaim leaves fs_size in place. -/
theorem reclaim_fs_size (len : Nat) (a : ssmem_allocator_t) :
    (ssmem_mem_reclaim len a).1.fs_size = a.fs_size := rfl

/-- ssmem_mem_reclaim never unlinks the head free-set: the output
free-set list starts with the same head, followed either by the same
tail or (after promotion) by nothing. -/
theorem reclaim_head (len : Nat) (a : ssmem_allocator_t) (fs : ssmem_free_set_t)
    (rest : List ssmem_free_set_t) (hfl : a.free_set_list = fs :: rest) :
    ∃ rest2, (ssmem_mem_reclaim len a).1.free_set_list = fs :: rest2 ∧
      (rest2 = rest ∨ rest2 = []) := by
  rcases fsStep_char len a.free_set_list a.free_set_num a.collected_set_list
      a.collected_set_num with he | ⟨f0, f1, r2, ts0, ts1, hl2, h0, h1, hc, he⟩
  · rw [hfl] at he
    exact ⟨rest, by simp [ssmem_mem_reclaim, he, hfl], Or.inl rfl⟩
  · rw [hfl] at hl2
    injection hl2 with hh ht
    subst hh
    exact ⟨[], by simp [ssmem_mem_reclaim, he], Or.inr rfl⟩

/-- Claim C9 (amended): on a capacity-1 allocator, every ssmem_free call
leaves the head free-set full, so the snapshot-and-reclaim branch (whose
guard is fs->curr == fs->size) fires on every call after the first; and
whenever a call does find the head full, it takes the head's snapshot
before pushing: after the call the second list entry carries
the snapshot just collected. -/
theorem c9_capacity_one_head_full (g : ssmem_ts_globals) (a : ssmem_allocator_t)
    (fs : ssmem_free_set_t) (rest : List ssmem_free_set_t) (obj : Nat)
    (hfl : a.free_set_list = fs :: rest)
    (hfs1 : a.fs_size = 1) (hsize : fs.size = 1) (hcurr : fs.curr ≤ 1)
    (havail : ∀ q ∈ a.available_set_list, q.size = 1) :
    (∃ fh rest2, (ssmem_free g a obj).free_set_list = fh :: rest2 ∧
      fh.curr = 1 ∧ fh.size = 1) ∧
    (fs.curr = fs.size →
      ((ssmem_free g a obj).free_set_list.map ssmem_free_set_t.ts_set).get? 1 =
        some (some (ssmem_ts_set_collect g fs.ts_set))) := by
  obtain ⟨am, amc, ams, ats, afs, amch, fsl, fsn, csl, csn, avl, rl, rn⟩ := a
  have hfl2 : fsl = fs :: rest := hfl
  subst hfl2
  have hfs12 : afs = 1 := hfs1
  subst hfs12
  have havail2 : ∀ q ∈ avl, q.size = 1 := havail
  by_cases hfull : fs.curr = fs.size
  · obtain ⟨rest2, hA2fl, -⟩ := reclaim_head g.ts_list_len
      (⟨am, amc, ams, ats, 1, amch,
        (⟨fs.size, fs.curr, fs.set, some (ssmem_ts_set_collect g fs.ts_set)⟩ :
          ssmem_free_set_t) :: rest,
        fsn, csl, csn, avl, rl, rn⟩ : ssmem_allocator_t)
      ⟨fs.size, fs.curr, fs.set, some (ssmem_ts_set_collect g fs.ts_set)⟩ rest rfl
    simp only [ssmem_free]
    rw [if_pos hfull]
    rcases avl with _ | ⟨q, qs⟩
    · constructor
      · refine ⟨_, _, rfl, ?_, ?_⟩ <;>
          simp [ssmem_free_set_get_avail, reclaim_avail, ssmem_free_set_new,
            reclaim_fs_size]
      · intro hfull2
        simp [ssmem_free_set_get_avail, reclaim_avail, hA2fl]
    · have hq1 := havail2 q (by simp)
      constructor
      · refine ⟨_, _, rfl, ?_, ?_⟩ <;>
          simp [ssmem_free_set_get_avail, reclaim_avail, hq1]
      · intro hfull2
        simp [ssmem_free_set_get_avail, reclaim_avail, hA2fl]
  · simp only [ssmem_free]
    rw [if_neg hfull]
    have hc0 : fs.curr = 0 := by
      rw [hsize] at hfull
      omega
    constructor
    · exact ⟨_, _, rfl, by simp [hc0], by simp [hsize]⟩
    · intro hfull2
      exact absurd hfull2 hfull

/-- Counterexample to C9 as stated: on a freshly initialized capacity-1
allocator the FIRST ssmem_free call does not take any snapshot and does
not run a reclamation pass - after it, the only free-set still has
ts_set = none and free_set_num is still 1 (the full-head branch fires
only from the second call on). -/
theorem c9_counterexample :
    (ssmem_free ⟨[⟨0, 3⟩], 1⟩ (ssmem_alloc_init_fs_size 0 4096 1) 7).free_set_list =
      [⟨1, 1, [7], none⟩] ∧
    (ssmem_free ⟨[⟨0, 3⟩], 1⟩ (ssmem_alloc_init_fs_size 0 4096 1) 7).free_set_num = 1 := by
  constructor
  · decide
  · decide

/-- Witness for C9 at a concrete capacity-1 allocator whose head set is
full: the call snapshots the head (visible as the second list entry's
ts_set) and the new head is full again. -/
theorem c9_witness :
    (∃ fh rest2,
      (ssmem_free ⟨[⟨0, 3⟩], 1⟩
          { mem := 0, mem_curr := 0, mem_size := 4096, tot_size := 4096,
            fs_size := 1, mem_chunks := [0],
            free_set_list := [⟨1, 1, [7], none⟩], free_set_num := 1,
            collected_set_list := [], collected_set_num := 0,
            available_set_list := [], released_mem_list := [],
            released_num := 0 } 8).free_set_list = fh :: rest2 ∧
        fh.curr = 1 ∧ fh.size = 1) ∧
    ((ssmem_free ⟨[⟨0, 3⟩], 1⟩
        { mem := 0, mem_curr := 0, mem_size := 4096, tot_size := 4096,
          fs_size := 1, mem_chunks := [0],
          free_set_list := [⟨1, 1, [7], none⟩], free_set_num := 1,
          collected_set_list := [], collected_set_num := 0,
          available_set_list := [], released_mem_list := [],
          released_num := 0 } 8).free_set_list.map ssmem_free_set_t.ts_set).get? 1 =
      some (some (ssmem_ts_set_collect ⟨[⟨0, 3⟩], 1⟩ none)) := by
  have h := c9_capacity_one_head_full ⟨[⟨0, 3⟩], 1⟩
    { mem := 0, mem_curr := 0, mem_size := 4096, tot_size := 4096,
      fs_size := 1, mem_chunks := [0],
      free_set_list := [⟨1, 1, [7], none⟩], free_set_num := 1,
      collected_set_list := [], collected_set_num := 0,
      available_set_list := [], released_mem_list := [], released_num := 0 }
    ⟨1, 1, [7], none⟩ [] 8 rfl rfl rfl (by decide) (by simp)
  exact ⟨h.1, h.2 rfl⟩

/-- Claim C2 (amended): when a free-set container is taken from the
available-set list for reuse its fill is reset to 0 and the list is
popped, but its snapshot buffer is NOT reset - the stale ts_set pointer
stays attached (it is only overwritten, in place, when the set next
becomes full); only a freshly allocated container starts with
ts_set = none. -/
theorem c2_get_avail_keeps_stale_snapshot (a : ssmem_allocator_t) (size : Nat) :
    (∀ fs rest, a.available_set_list = fs :: rest →
      (ssmem_free_set_get_avail a size).1 = { fs with curr := 0 } ∧
      (ssmem_free_set_get_avail a size).1.ts_set = fs.ts_set ∧
      (ssmem_free_set_get_avail a size).2 = { a with available_set_list := rest }) ∧
    (a.available_set_list = [] →
      (ssmem_free_set_get_avail a size).1 = ssmem_free_set_new size ∧
      (ssmem_free_set_get_avail a size).1.ts_set = none ∧
      (ssmem_free_set_get_avail a size).2 = a) := by
  constructor
  · intro fs rest h
    refine ⟨?_, ?_, ?_⟩ <;> simp [ssmem_free_set_get_avail, h]
  · intro h
    refine ⟨?_, ?_, ?_⟩ <;>
      simp [ssmem_free_set_get_avail, h, ssmem_free_set_new]

/-- Witness for C2 at a concrete allocator with one available container
carrying a stale snapshot. -/
theorem c2_witness :
    (ssmem_free_set_get_avail
        { mem := 0, mem_curr := 0, mem_size := 64, tot_size := 64, fs_size := 1,
          mem_chunks := [0],
          free_set_list := [⟨1, 0, [0], none⟩], free_set_num := 1,
          collected_set_list := [], collected_set_num := 0,
          available_set_list := [⟨1, 1, [42], some [5]⟩],
          released_mem_list := [], released_num := 0 } 1).1 =
      ⟨1, 0, [42], some [5]⟩ ∧
    (ssmem_free_set_get_avail
        { mem := 0, mem_curr := 0, mem_size := 64, tot_size := 64, fs_size := 1,
          mem_chunks := [0],
          free_set_list := [⟨1, 0, [0], none⟩], free_set_num := 1,
          collected_set_list := [], collected_set_num := 0,
          available_set_list := [⟨1, 1, [42], some [5]⟩],
          released_mem_list := [], released_num := 0 } 1).1.ts_set = some [5] := by
  have h := (c2_get_avail_keeps_stale_snapshot
    { mem := 0, mem_curr := 0, mem_size := 64, tot_size := 64, fs_size := 1,
      mem_chunks := [0],
      free_set_list := [⟨1, 0, [0], none⟩], free_set_num := 1,
      collected_set_list := [], collected_set_num := 0,
      available_set_list := [⟨1, 1, [42], some [5]⟩],
      released_mem_list := [], released_num := 0 } 1).1
    ⟨1, 1, [42], some [5]⟩ [] rfl
  exact ⟨h.1, h.2.1⟩

/-- Counterexample to C2 as stated: a container popped from the
available-set list is accepting writes (fill 0 < capacity 1) yet still
carries a snapshot - its ts_set is not reset to none. -/
theorem c2_counterexample :
    (ssmem_free_set_get_avail
        { mem := 0, mem_curr := 0, mem_size := 64, tot_size := 64, fs_size := 1,
          mem_chunks := [0],
          free_set_list := [⟨1, 0, [0], none⟩], free_set_num := 1,
          collected_set_list := [], collected_set_num := 0,
          available_set_list := [⟨1, 1, [42], some [5]⟩],
          released_mem_list := [], released_num := 0 } 1).1.curr <
      (ssmem_free_set_get_avail
        { mem := 0, mem_curr := 0, mem_size := 64, tot_size := 64, fs_size := 1,
          mem_chunks := [0],
          free_set_list := [⟨1, 0, [0], none⟩], free_set_num := 1,
          collected_set_list := [], collected_set_num := 0,
          available_set_list := [⟨1, 1, [42], some [5]⟩],
          released_mem_list := [], released_num := 0 } 1).1.size ∧
    (ssmem_free_set_get_avail
        { mem := 0, mem_curr := 0, mem_size := 64, tot_size := 64, fs_size := 1,
          mem_chunks := [0],
          free_set_list := [⟨1, 0, [0], none⟩], free_set_num := 1,
          collected_set_list := [], collected_set_num := 0,
          available_set_list := [⟨1, 1, [42], some [5]⟩],
          released_mem_list := [], released_num := 0 } 1).1.ts_set ≠ none := by
  constructor
  · decide
  · decide

/-- Claim C4 (amended): the snapshot walk records the versions of
exactly the longest prefix of the registry list whose slot ids are all
below the registry length, in list order; it terminates at the first
slot with id >= len, so slots with id < len occurring after such a slot
are not recorded. -/
theorem c4_collect_records_prefix (len : Nat) (slots : List ssmem_ts_t)
    (buf : List Nat) :
    ssmem_ts_set_collect_loop len slots buf =
      (slots.takeWhile (fun s => decide (s.id < len))).foldl
        (fun b s => b.set s.id s.version) buf := by
  induction slots generalizing buf with
  | nil => rfl
  | cons s rest ih =>
      by_cases h : s.id < len
      · simp [ssmem_ts_set_collect_loop, h, List.takeWhile_cons, ih]
      · simp [ssmem_ts_set_collect_loop, h, List.takeWhile_cons]

/-- Counterexample to C4 as stated: with registry length 1 and list
[slot(id 1, v 9), slot(id 0, v 7)] (a freshly inserted head slot whose
id is not yet covered by the length), the walk stops at the head and the
slot with id 0 < len is never recorded: dest stays [0] instead of
becoming [7]. -/
theorem c4_counterexample :
    ssmem_ts_set_collect_loop 1 [⟨1, 9⟩, ⟨0, 7⟩] [0] = [0] ∧
    ssmem_ts_set_collect_loop 1 [⟨1, 9⟩, ⟨0, 7⟩] [0] ≠ [7] := by
  constructor
  · decide
  · decide

/-- Claim C3 (amended): ssmem_ts_compare runs the elementwise strict
comparison over the registry length at compare time (ssmem_ts_list_len),
not over min(len_new, len_old): it succeeds exactly when the word read
at every index i < len of the old buffer is strictly below the new one,
and when the older snapshot's allocated extent is shorter than len the
outcome depends on the heap words beyond that extent (two heaps agreeing
on the allocated entry can give different results), rather than those
entries being treated as 0. -/
theorem c3_compare_over_registry_len :
    (∀ (len : Nat) (sN sO : Nat → Nat),
      ssmem_ts_compare_mem len sN sO = true ↔ ∀ i, i < len → sO i < sN i) ∧
    (∃ sN sO sO2 : Nat → Nat, (∀ i, i < 1 → sO i = sO2 i) ∧
      ssmem_ts_compare_mem 2 sN sO ≠ ssmem_ts_compare_mem 2 sN sO2) := by
  constructor
  · intro len sN sO
    simp [ssmem_ts_compare_mem, List.all_eq_true, List.mem_range]
  · refine ⟨fun _ => 1, fun _ => 0, fun i => if i = 0 then 0 else 5, ?_, ?_⟩
    · intro i hi
      have h0 : i = 0 := by omega
      simp [h0]
    · decide

/-- Witness for C3's amended characterization at a concrete comparison. -/
theorem c3_witness :
    ssmem_ts_compare_mem 1 (fun _ => 1) (fun _ => 0) = true :=
  (c3_compare_over_registry_len.1 1 (fun _ => 1) (fun _ => 0)).mpr
    (fun _ _ => Nat.one_pos)

/-- Counterexample to C3 as stated: comparing a length-2 snapshot
against an older snapshot of allocated extent 1 whose single entry is 0,
with registry length 2 at compare time.  Under the spec's rule (compare
over min(2,1) entries, missing old entries read as 0) the comparison
succeeds, but the code compares over ssmem_ts_list_len = 2 entries and
reads the heap word (here 5) beyond the old buffer's extent, so it
fails. -/
theorem c3_counterexample :
    ssmem_ts_compare_mem 2 (fun _ => 1) (fun i => if i = 0 then 0 else 5) = false ∧
    spec_ts_compare_trunc 2 1 (fun _ => 1) (fun i => if i = 0 then 0 else 5) = true := by
  constructor
  · decide
  · decide

/-- Claim C5 (amended): on a fresh allocator (chunk size 4096, free-set
capacity 2) whose backing chunk base is cache-line-aligned, two
consecutive alloc(16) calls return p1 = base and p2 = base + 16: they
are distinct, p1 < p2, p2 - p1 = 16, p1 is 64-byte-aligned but p2 is
offset 16 into the cache line - only chunk bases are cache-line-aligned,
bump pointers inherit alignment only when the accumulated offset is a
multiple of 64. -/
theorem c5_alloc_bump_layout (base : Nat) (hb : base % CACHE_LINE_SIZE = 0) :
    (ssmem_alloc false 0 0 (ssmem_alloc_init_fs_size base 4096 2) 16).2 = base ∧
    (ssmem_alloc false 0 0
        (ssmem_alloc false 0 0 (ssmem_alloc_init_fs_size base 4096 2) 16).1
        16).2 = base + 16 ∧
    (ssmem_alloc false 0 0 (ssmem_alloc_init_fs_size base 4096 2) 16).2 <
      (ssmem_alloc false 0 0
        (ssmem_alloc false 0 0 (ssmem_alloc_init_fs_size base 4096 2) 16).1 16).2 ∧
    (ssmem_alloc false 0 0
        (ssmem_alloc false 0 0 (ssmem_alloc_init_fs_size base 4096 2) 16).1 16).2 -
      (ssmem_alloc false 0 0 (ssmem_alloc_init_fs_size base 4096 2) 16).2 = 16 ∧
    (ssmem_alloc false 0 0 (ssmem_alloc_init_fs_size base 4096 2) 16).2 %
      CACHE_LINE_SIZE = 0 ∧
    (ssmem_alloc false 0 0
        (ssmem_alloc false 0 0 (ssmem_alloc_init_fs_size base 4096 2) 16).1 16).2 %
      CACHE_LINE_SIZE = 16 := by
  have h1 : ssmem_alloc false 0 0 (ssmem_alloc_init_fs_size base 4096 2) 16 =
      ({ ssmem_alloc_init_fs_size base 4096 2 with mem_curr := 16 }, base) := by
    simp [ssmem_alloc, ssmem_alloc_init_fs_size]
  have h2 : ssmem_alloc false 0 0
      ({ ssmem_alloc_init_fs_size base 4096 2 with mem_curr := 16 }) 16 =
      ({ ssmem_alloc_init_fs_size base 4096 2 with mem_curr := 32 }, base + 16) := by
    simp [ssmem_alloc, ssmem_alloc_init_fs_size]
  simp only [h1, h2, CACHE_LINE_SIZE]
  simp only [CACHE_LINE_SIZE] at hb
  refine ⟨trivial, trivial, by omega, by omega, hb, by omega⟩

/-- Witness for C5's amended layout at base 4096. -/
theorem c5_witness :
    (ssmem_alloc false 0 0 (ssmem_alloc_init_fs_size 4096 4096 2) 16).2 = 4096 ∧
    (ssmem_alloc false 0 0
        (ssmem_alloc false 0 0 (ssmem_alloc_init_fs_size 4096 4096 2) 16).1
        16).2 = 4096 + 16 := by
  have h := c5_alloc_bump_layout 4096 (by decide)
  exact ⟨h.1, h.2.1⟩

/-- Counterexample to C5 as stated: the second of two consecutive
alloc(16) results on a fresh allocator is NOT 64-byte-aligned (it is 16
bytes past its 64-byte-aligned predecessor), so not every pointer
returned by ssmem_alloc is cache-line-aligned, and two 64-byte-aligned
pointers 16 bytes apart cannot exist. -/
theorem c5_counterexample :
    (ssmem_alloc false 0 0
        (ssmem_alloc false 0 0 (ssmem_alloc_init_fs_size 4096 4096 2) 16).1
        16).2 % CACHE_LINE_SIZE ≠ 0 ∧
    (ssmem_alloc false 0 0
        (ssmem_alloc false 0 0 (ssmem_alloc_init_fs_size 4096 4096 2) 16).1
        16).2 -
      (ssmem_alloc false 0 0 (ssmem_alloc_init_fs_size 4096 4096 2) 16).2 = 16 := by
  constructor
  · decide
  · decide

/-- Claim C6 (amended): in ssmem_alloc with no collected pointers
available, a new chunk is allocated exactly when
cursor + size >= arena_size - the exact-fit case cursor + size ==
arena_size also allocates a new chunk; only when cursor + size <
arena_size is the allocation served from the current chunk, with the
cursor advancing by size and the chunk list, chunk base and arena size
unchanged. -/
theorem c6_new_chunk_iff_ge (double : Bool) (memSizeMax freshBase : Nat)
    (a : ssmem_allocator_t) (size : Nat) (hc : a.collected_set_list = []) :
    (a.mem_curr + size ≥ a.mem_size →
      (ssmem_alloc double memSizeMax freshBase a size).1.mem_chunks =
        freshBase :: a.mem_chunks ∧
      (ssmem_alloc double memSizeMax freshBase a size).1.mem = freshBase ∧
      (ssmem_alloc double memSizeMax freshBase a size).1.mem_curr = size ∧
      (ssmem_alloc double memSizeMax freshBase a size).2 = freshBase) ∧
    (a.mem_curr + size < a.mem_size →
      (ssmem_alloc double memSizeMax freshBase a size).1.mem_chunks =
        a.mem_chunks ∧
      (ssmem_alloc double memSizeMax freshBase a size).1.mem = a.mem ∧
      (ssmem_alloc double memSizeMax freshBase a size).1.mem_size = a.mem_size ∧
      (ssmem_alloc double memSizeMax freshBase a size).1.mem_curr =
        a.mem_curr + size ∧
      (ssmem_alloc double memSizeMax freshBase a size).2 = a.mem + a.mem_curr) := by
  obtain ⟨am, amc, ams, ats, afs, amch, fsl, fsn, csl, csn, avl, rl, rn⟩ := a
  have hc2 : csl = [] := hc
  subst hc2
  constructor
  · intro hg
    have hg2 : amc + size ≥ ams := hg
    simp only [ssmem_alloc]
    rw [if_pos hg2]
    refine ⟨rfl, rfl, by simp, rfl⟩
  · intro hg
    have hg2 : ¬(amc + size ≥ ams) := by
      intro hx
      exact absurd hx (by simpa using Nat.not_le.mpr hg)
    simp only [ssmem_alloc]
    rw [if_neg hg2]
    exact ⟨rfl, rfl, rfl, rfl, rfl⟩

/-- Witness for C6 at concrete states on both sides of the boundary. -/
theorem c6_witness :
    (ssmem_alloc false 0 777 (ssmem_alloc_init_fs_size 0 64 1) 64).1.mem_chunks =
      [777, 0] ∧
    (ssmem_alloc false 0 777 (ssmem_alloc_init_fs_size 0 64 1) 16).1.mem_chunks =
      [0] := by
  have h1 := (c6_new_chunk_iff_ge false 0 777 (ssmem_alloc_init_fs_size 0 64 1) 64
    rfl).1 (by decide)
  have h2 := (c6_new_chunk_iff_ge false 0 777 (ssmem_alloc_init_fs_size 0 64 1) 16
    rfl).2 (by decide)
  exact ⟨h1.1, h2.1⟩

/-- Counterexample to C6 as stated: the exact-fit case.  On a fresh
allocator with arena size 64 and cursor 0, alloc(64) satisfies
cursor + size <= arena_size, yet the code (whose guard is >=, not >)
allocates a new chunk: the chunk list grows from [0] to [777, 0]. -/
theorem c6_counterexample :
    (ssmem_alloc_init_fs_size 0 64 1).mem_curr + 64 ≤
      (ssmem_alloc_init_fs_size 0 64 1).mem_size ∧
    (ssmem_alloc false 0 777 (ssmem_alloc_init_fs_size 0 64 1) 64).1.mem_chunks ≠
      (ssmem_alloc_init_fs_size 0 64 1).mem_chunks := by
  have he : (ssmem_alloc false 0 777 (ssmem_alloc_init_fs_size 0 64 1)
      64).1.mem_chunks = [777, 0] := by
    simp [ssmem_alloc, ssmem_alloc_init_fs_size]
  refine ⟨by decide, ?_⟩
  rw [he]
  decide
